import Mathlib

/-! rueidis: the single-node client (`client.go`, `rueidis.go`)

A shallow embedding of `SingleClient` and `dedicatedSingleClient`.

The client is glue over three interfaces that are declared elsewhere in the
package (`conn`, `wire`, `cmds.Builder`).  Their methods are taken as
parameters: each one is an arbitrary transformer of an abstract environment
state `σ` that returns the method's result.  Every call the client makes on
one of these interfaces is recorded, in call order, in an effect trace, so a
statement such as "calls `conn.Do` exactly once, then `Builder.Put`" is a
statement about the trace the embedding produces.

Go values are modelled as follows: `error` is `Option Error` (`none` is
`nil`), a pointer result that may be `nil` is an `Option`, a slice is a
`List` (the `nil` slice is `[]`), `time.Duration` is its `int64` count of
nanoseconds as an `Int`.
-/

namespace Rueidis

/-! ## Data -/

/-- Modelled from the spec: the decoded reply of `proto.Message` (package
`internal/proto`, not part of the sources here), "one of a closed set of
variants {error, simple status, bulk value, array, mapping, nil, push}". -/
inductive Message : Type
  | error (text : String)
  | status (text : String)
  | bulk (value : String)
  | array (items : List Message)
  | mapping (entries : List (Message × Message))
  | nil
  | push (items : List Message)

/-- Go `error` values that occur here: one made by `errors.New`, or a server
error reply (`proto.RedisError`, a `Message`). -/
inductive Error : Type
  | New (text : String)
  | RedisError (msg : Message)

/-- Source: `var ErrConnClosing = errors.New("connection is closing")` -/
def ErrConnClosing : Error := Error.New "connection is closing"

/-- Modelled from the spec: `proto.Result` (package `internal/proto`), a
decoded reply together with the transport failure, if any. -/
structure Result where
  val : Message
  err : Option Error

/-- Modelled from the spec: `proto.IsRedisNil` (package `internal/proto`):
the error is a server error reply and it is the distinguished "nil"
sentinel. -/
def protoIsRedisNil : Option Error → Bool
  | some (Error.RedisError Message.nil) => true
  | _ => false

/-- Source: `func IsRedisNil(err error) bool` -/
def IsRedisNil (err : Option Error) : Bool :=
  protoIsRedisNil err

/-- Source: `cmds.Completed`: a built command; `CommandSlice()` is its argument
vector. -/
structure Completed where
  cs : List String
  deriving DecidableEq, Repr

/-- Source: `cmds.Completed.CommandSlice()` -/
def Completed.CommandSlice (c : Completed) : List String := c.cs

/-- Source: `cmds.Cacheable`: a built command that may be served from the cache. -/
structure Cacheable where
  cs : List String
  deriving DecidableEq, Repr

/-- Source: `cmds.Cacheable.CommandSlice()` -/
def Cacheable.CommandSlice (c : Cacheable) : List String := c.cs

/-- What a `context.Context` reports through `Err()`: still live, cancelled,
or past its deadline. -/
inductive Context : Type
  | live
  | canceled
  | deadlineExceeded
  deriving DecidableEq, Repr

/-- A context that is already cancelled or whose deadline has passed. -/
def Context.done : Context → Bool
  | Context.live => false
  | _ => true

/-! ## Effect trace and environment -/

/-- One call made on an interface outside this file.  `W` is the type of
wire handles. -/
inductive Event (W : Type) : Type
  | Dial
  | installHook
  | connDo (cmd : Completed)
  | connDoCache (cmd : Cacheable) (ttl : Int)
  | Acquire
  | Store (w : W)
  | Close
  | wireDo (w : W) (cmd : Completed)
  | wireDoMulti (w : W) (multi : List Completed)
  | Put (cs : List String)
  deriving DecidableEq, Repr

/-- The environment: the abstract state of everything behind the interfaces,
and the calls made so far, oldest first. -/
structure World (σ W : Type) where
  st : σ
  trace : List (Event W)

/-- The `conn` interface (declared outside these sources), as far as the
client uses it. -/
structure conn (σ W : Type) where
  Dial : σ → Option Error × σ
  Do : Completed → σ → Result × σ
  DoCache : Cacheable → Int → σ → Result × σ
  Acquire : σ → W × σ
  Store : W → σ → σ
  Close : σ → σ

/-- The `wire` interface (declared outside these sources): the methods of
the wire behind a handle. -/
structure wire (σ W : Type) where
  Do : W → Completed → σ → Result × σ
  DoMulti : W → List Completed → σ → List Result × σ

/-- Source: `cmds.Builder` (package `internal/cmds`), as far as the client uses it:
`Put` returns a command's buffer to the reuse pool. -/
structure Builder (σ : Type) where
  Put : List String → σ → σ

/-- Source: `PubSubHandlers` (declared outside these sources) with its method
`installHook(builder, connGetter)`. -/
structure PubSubHandlers (σ W : Type) where
  installHook : Builder σ → (Unit → conn σ W) → σ → σ

/-- Source: `type ConnOption struct` -/
structure ConnOption (σ W : Type) where
  CacheSizeEachConn : Int
  BlockingPoolSize : Int
  Username : String
  Password : String
  ClientName : String
  SelectDB : Int
  DialTimeout : Int
  PubSubHandlers : PubSubHandlers σ W

/-- Source: `type SingleClientOption struct` -/
structure SingleClientOption (σ W : Type) where
  Address : String
  ConnOption : ConnOption σ W

/-- Source: `type connFn func(dst string, opt ConnOption) conn` -/
abbrev connFn (σ W : Type) : Type := String → ConnOption σ W → conn σ W

/-- Source: `type SingleClient struct` -/
structure SingleClient (σ W : Type) where
  cmd : Builder σ
  conn : conn σ W

/-- Source: `type dedicatedSingleClient struct` -/
structure dedicatedSingleClient (σ W : Type) where
  cmd : Builder σ
  wire : W

variable {σ W : Type}

/-! ## Recorded interface calls -/

/-- Source: `conn.Dial()` -/
def conn.callDial (c : conn σ W) (w : World σ W) : Option Error × World σ W :=
  ((c.Dial w.st).1, { st := (c.Dial w.st).2, trace := w.trace ++ [Event.Dial] })

/-- Source: `conn.Do(cmd)` -/
def conn.callDo (c : conn σ W) (cmd : Completed) (w : World σ W) : Result × World σ W :=
  ((c.Do cmd w.st).1, { st := (c.Do cmd w.st).2, trace := w.trace ++ [Event.connDo cmd] })

/-- Source: `conn.DoCache(cmd, ttl)` -/
def conn.callDoCache (c : conn σ W) (cmd : Cacheable) (ttl : Int) (w : World σ W) :
    Result × World σ W :=
  ((c.DoCache cmd ttl w.st).1,
    { st := (c.DoCache cmd ttl w.st).2, trace := w.trace ++ [Event.connDoCache cmd ttl] })

/-- Source: `conn.Acquire()` -/
def conn.callAcquire (c : conn σ W) (w : World σ W) : W × World σ W :=
  ((c.Acquire w.st).1, { st := (c.Acquire w.st).2, trace := w.trace ++ [Event.Acquire] })

/-- Source: `conn.Store(w)` -/
def conn.callStore (c : conn σ W) (x : W) (w : World σ W) : World σ W :=
  { st := c.Store x w.st, trace := w.trace ++ [Event.Store x] }

/-- Source: `conn.Close()` -/
def conn.callClose (c : conn σ W) (w : World σ W) : World σ W :=
  { st := c.Close w.st, trace := w.trace ++ [Event.Close] }

/-- Source: `wire.Do(cmd)` on the wire behind handle `x` -/
def wire.callDo (I : wire σ W) (x : W) (cmd : Completed) (w : World σ W) :
    Result × World σ W :=
  ((I.Do x cmd w.st).1, { st := (I.Do x cmd w.st).2, trace := w.trace ++ [Event.wireDo x cmd] })

/-- Source: `wire.DoMulti(multi...)` on the wire behind handle `x` -/
def wire.callDoMulti (I : wire σ W) (x : W) (multi : List Completed) (w : World σ W) :
    List Result × World σ W :=
  ((I.DoMulti x multi w.st).1,
    { st := (I.DoMulti x multi w.st).2, trace := w.trace ++ [Event.wireDoMulti x multi] })

/-- Source: `Builder.Put(cs)` -/
def Builder.callPut (b : Builder σ) (cs : List String) (w : World σ W) : World σ W :=
  { st := b.Put cs w.st, trace := w.trace ++ [Event.Put cs] }

/-- Source: `PubSubHandlers.installHook(builder, connGetter)` -/
def PubSubHandlers.callInstallHook (h : PubSubHandlers σ W) (b : Builder σ)
    (g : Unit → conn σ W) (w : World σ W) : World σ W :=
  { st := h.installHook b g w.st, trace := w.trace ++ [Event.installHook] }

/-! ## client.go -/

/-- Source: `func newSingleClient(opt SingleClientOption, connFn connFn) (*SingleClient, error)`.
`NewBuilder` stands for `cmds.NewBuilder(cmds.NoSlot)`. -/
def newSingleClient (NewBuilder : Builder σ) (opt : SingleClientOption σ W) (mk : connFn σ W)
    (w : World σ W) : (Option (SingleClient σ W) × Option Error) × World σ W :=
  let client : SingleClient σ W := { cmd := NewBuilder, conn := mk opt.Address opt.ConnOption }
  let d := client.conn.callDial w
  match d.1 with
  | some err => ((none, some err), d.2)
  | none =>
    let w2 := opt.ConnOption.PubSubHandlers.callInstallHook client.cmd (fun _ => client.conn) d.2
    ((some client, none), w2)

/-- Source: `func (c *SingleClient) B() *cmds.Builder` -/
def SingleClient.B (c : SingleClient σ W) : Builder σ := c.cmd

/-- Source: `func (c *SingleClient) Do(ctx context.Context, cmd cmds.Completed) (resp proto.Result)` -/
def SingleClient.Do (c : SingleClient σ W) (_ctx : Context) (cmd : Completed)
    (w : World σ W) : Result × World σ W :=
  let r := c.conn.callDo cmd w
  let w2 := c.cmd.callPut cmd.CommandSlice r.2
  (r.1, w2)

/-- Source: `func (c *SingleClient) DoCache(ctx context.Context, cmd cmds.Cacheable, ttl time.Duration) (resp proto.Result)` -/
def SingleClient.DoCache (c : SingleClient σ W) (_ctx : Context) (cmd : Cacheable) (ttl : Int)
    (w : World σ W) : Result × World σ W :=
  let r := c.conn.callDoCache cmd ttl w
  let w2 := c.cmd.callPut cmd.CommandSlice r.2
  (r.1, w2)

/-- Source: `func (c *SingleClient) Dedicated(fn func(DedicatedClient) error) (err error)`.
The callback is any function of the dedicated client it is handed and of the
environment; it is assumed to return. -/
def SingleClient.Dedicated (c : SingleClient σ W)
    (fn : dedicatedSingleClient σ W → World σ W → Option Error × World σ W)
    (w : World σ W) : Option Error × World σ W :=
  let a := c.conn.callAcquire w
  let r := fn { cmd := c.cmd, wire := a.1 } a.2
  let w3 := c.conn.callStore a.1 r.2
  (r.1, w3)

/-- Source: `func (c *SingleClient) Close()` -/
def SingleClient.Close (c : SingleClient σ W) (w : World σ W) : World σ W :=
  c.conn.callClose w

/-- Source: `func (c *dedicatedSingleClient) B() *cmds.Builder` -/
def dedicatedSingleClient.B (c : dedicatedSingleClient σ W) : Builder σ := c.cmd

/-- Source: `func (c *dedicatedSingleClient) Do(ctx context.Context, cmd cmds.Completed) (resp proto.Result)` -/
def dedicatedSingleClient.Do (I : Rueidis.wire σ W) (c : dedicatedSingleClient σ W) (_ctx : Context)
    (cmd : Completed) (w : World σ W) : Result × World σ W :=
  let r := I.callDo c.wire cmd w
  let w2 := c.cmd.callPut cmd.CommandSlice r.2
  (r.1, w2)

/-- The loop `for _, cmd := range multi { c.cmd.Put(cmd.CommandSlice()) }`. -/
def putAll (b : Builder σ) : List Completed → World σ W → World σ W
  | [], w => w
  | cmd :: rest, w => putAll b rest (b.callPut cmd.CommandSlice w)

/-- Source: `func (c *dedicatedSingleClient) DoMulti(ctx context.Context, multi ...cmds.Completed) (resp []proto.Result)` -/
def dedicatedSingleClient.DoMulti (I : Rueidis.wire σ W) (c : dedicatedSingleClient σ W)
    (_ctx : Context) (multi : List Completed) (w : World σ W) : List Result × World σ W :=
  if multi.length = 0 then
    ([], w)
  else
    let r := I.callDoMulti c.wire multi w
    let w2 := putAll c.cmd multi r.2
    (r.1, w2)

/-! ## Callbacks of `Dedicated` that use only the client they are handed -/

/-- A callback `fn func(DedicatedClient) error` that acts only through the
`DedicatedClient` it receives: it returns, or calls `B()`, `Do` or `DoMulti`
and goes on according to what the call returned. -/
inductive Script (σ : Type) : Type
  | done (err : Option Error)
  | B (k : Builder σ → Script σ)
  | Do (ctx : Context) (cmd : Completed) (k : Result → Script σ)
  | DoMulti (ctx : Context) (multi : List Completed) (k : List Result → Script σ)

/-- Run a scripted callback on a `dedicatedSingleClient`: every `Do` and
`DoMulti` of the script is the method of `client.go`. -/
def Script.run (I : Rueidis.wire σ W) :
    Script σ → dedicatedSingleClient σ W → World σ W → Option Error × World σ W
  | Script.done err, _, w => (err, w)
  | Script.B k, c, w => Script.run I (k c.B) c w
  | Script.Do ctx cmd k, c, w =>
    Script.run I (k (dedicatedSingleClient.Do I c ctx cmd w).1) c
      (dedicatedSingleClient.Do I c ctx cmd w).2
  | Script.DoMulti ctx multi k, c, w =>
    Script.run I (k (dedicatedSingleClient.DoMulti I c ctx multi w).1) c
      (dedicatedSingleClient.DoMulti I c ctx multi w).2

/-- The commands a scripted callback passes to `Do` and `DoMulti`, in the
order it passes them, when it is run from `w`. -/
def Script.issued (I : Rueidis.wire σ W) :
    Script σ → dedicatedSingleClient σ W → World σ W → List Completed
  | Script.done _, _, _ => []
  | Script.B k, c, w => Script.issued I (k c.B) c w
  | Script.Do ctx cmd k, c, w =>
    cmd :: Script.issued I (k (dedicatedSingleClient.Do I c ctx cmd w).1) c
      (dedicatedSingleClient.Do I c ctx cmd w).2
  | Script.DoMulti ctx multi k, c, w =>
    multi ++ Script.issued I (k (dedicatedSingleClient.DoMulti I c ctx multi w).1) c
      (dedicatedSingleClient.DoMulti I c ctx multi w).2

/-! ## Reading a trace -/

/-- The event is a call of a method of the shared `conn`. -/
def Event.isConnCall : Event W → Bool
  | Event.Dial => true
  | Event.connDo _ => true
  | Event.connDoCache _ _ => true
  | Event.Acquire => true
  | Event.Store _ => true
  | Event.Close => true
  | _ => false

/-- The event is a call of a method of a wire. -/
def Event.isWireCall : Event W → Bool
  | Event.wireDo _ _ => true
  | Event.wireDoMulti _ _ => true
  | _ => false

/-- The event is a call on the wire `x`, or a `Builder.Put`. -/
def Event.onWire (x : W) : Event W → Prop
  | Event.wireDo y _ => y = x
  | Event.wireDoMulti y _ => y = x
  | Event.Put _ => True
  | _ => False

/-- The commands executed on wires, each with the wire it ran on, in
execution order. -/
def wireCmds : List (Event W) → List (W × Completed)
  | [] => []
  | Event.wireDo x cmd :: rest => (x, cmd) :: wireCmds rest
  | Event.wireDoMulti x multi :: rest => multi.map (fun cmd => (x, cmd)) ++ wireCmds rest
  | _ :: rest => wireCmds rest

/-! ## The pool behind `conn`, as far as closing goes -/

/-- Modelled from the spec: the pool that implements `conn` (`makeMux`, not
part of the sources here), as far as closing goes.  "`close()`: terminates
every owned connection; any call made afterward fails with a pool-closed
condition", "fail immediately with a connection-closed condition and never
hangs".  The state carries a closed flag next to the state of an arbitrary
open pool `inner`; `Close` sets it; once it is set `Dial`, `Do` and
`DoCache` answer `ErrConnClosing` without consulting `inner`. -/
def closingConn (inner : conn σ W) : conn (σ × Bool) W where
  Dial s :=
    if s.2 then (some ErrConnClosing, s)
    else ((inner.Dial s.1).1, ((inner.Dial s.1).2, s.2))
  Do cmd s :=
    if s.2 then ({ val := Message.nil, err := some ErrConnClosing }, s)
    else ((inner.Do cmd s.1).1, ((inner.Do cmd s.1).2, s.2))
  DoCache cmd ttl s :=
    if s.2 then ({ val := Message.nil, err := some ErrConnClosing }, s)
    else ((inner.DoCache cmd ttl s.1).1, ((inner.DoCache cmd ttl s.1).2, s.2))
  Acquire s := ((inner.Acquire s.1).1, ((inner.Acquire s.1).2, s.2))
  Store x s := (inner.Store x s.1, s.2)
  Close s := (inner.Close s.1, true)

/-- A builder acting on the pool's part of the state. -/
def Builder.lift (b : Builder σ) : Builder (σ × Bool) where
  Put cs s := (b.Put cs s.1, s.2)

/-- Wires acting on the pool's part of the state. -/
def wire.lift (I : Rueidis.wire σ W) : Rueidis.wire (σ × Bool) W where
  Do x cmd s := ((I.Do x cmd s.1).1, ((I.Do x cmd s.1).2, s.2))
  DoMulti x multi s := ((I.DoMulti x multi s.1).1, ((I.DoMulti x multi s.1).2, s.2))

/-- A `SingleClient` whose `conn` is the pool above. -/
def closingClient (b : Builder σ) (inner : conn σ W) : SingleClient (σ × Bool) W :=
  { cmd := b.lift, conn := closingConn inner }

/-- One call on a `SingleClient`. -/
inductive Call (σ : Type) : Type
  | Do (ctx : Context) (cmd : Completed)
  | DoCache (ctx : Context) (cmd : Cacheable) (ttl : Int)
  | Dedicated (fn : Script σ)
  | Close

/-- Make one call on the client, dropping what it returns. -/
def Call.run (I : Rueidis.wire σ W) (c : SingleClient σ W) : Call σ → World σ W → World σ W
  | Call.Do ctx cmd, w => (c.Do ctx cmd w).2
  | Call.DoCache ctx cmd ttl, w => (c.DoCache ctx cmd ttl w).2
  | Call.Dedicated fn, w => (c.Dedicated (fn.run I) w).2
  | Call.Close, w => c.Close w

/-- Make a sequence of calls on the client, first to last. -/
def runCalls (I : Rueidis.wire σ W) (c : SingleClient σ W) : List (Call σ) → World σ W → World σ W
  | [], w => w
  | call :: rest, w => runCalls I c rest (call.run I c w)

/-! ## A concrete environment

The state counts the interface calls made so far; wire handles are numbers;
every reply echoes the command. -/

/-- A reply that echoes the arguments of the command. -/
def echo (cs : List String) : Result :=
  { val := Message.array (cs.map Message.bulk), err := none }

/-- A connection whose `Dial` answers `dialErr` and whose `Acquire` hands out
wire 7. -/
def demoConn (dialErr : Option Error) : conn Nat Nat where
  Dial s := (dialErr, s + 1)
  Do cmd s := (echo cmd.cs, s + 1)
  DoCache cmd _ s := (echo cmd.cs, s + 1)
  Acquire s := (7, s + 1)
  Store _ s := s + 1
  Close s := s + 1

/-- Wires that echo. -/
def demoWire : Rueidis.wire Nat Nat where
  Do _ cmd s := (echo cmd.cs, s + 1)
  DoMulti _ multi s := (multi.map (fun cmd => echo cmd.cs), s + 1)

/-- A builder whose `Put` counts as one call. -/
def demoBuilder : Builder Nat where
  Put _ s := s + 1

/-- Handlers whose `installHook` counts as one call. -/
def demoHandlers : PubSubHandlers Nat Nat where
  installHook _ _ s := s + 1

/-- Options addressing a local server. -/
def demoOption : SingleClientOption Nat Nat :=
  { Address := "127.0.0.1:6379",
    ConnOption :=
      { CacheSizeEachConn := 0, BlockingPoolSize := 0, Username := "", Password := "",
        ClientName := "", SelectDB := 0, DialTimeout := 0, PubSubHandlers := demoHandlers } }

/-- A client over the echoing connection. -/
def demoClient : SingleClient Nat Nat :=
  { cmd := demoBuilder, conn := demoConn none }

/-- The start of a run: no call made yet. -/
def demoWorld : World Nat Nat := { st := 0, trace := [] }

/-- The command `GET k`. -/
def getK : Completed := { cs := ["GET", "k"] }

/-- The command `SET k v`. -/
def setKV : Completed := { cs := ["SET", "k", "v"] }

/-- The cacheable command `GET k`. -/
def getKCache : Cacheable := { cs := ["GET", "k"] }

/-! ## Lemmas -/

theorem putAll_trace (b : Builder σ) (multi : List Completed) (w : World σ W) :
    (putAll b multi w).trace = w.trace ++ multi.map (fun cmd => Event.Put cmd.CommandSlice) := by
  induction multi generalizing w with
  | nil => simp [putAll]
  | cons cmd rest ih => simp [putAll, ih, Builder.callPut]

theorem putAll_st (b : Builder σ) (multi : List Completed) (w : World σ W) :
    (putAll b multi w).st = multi.foldl (fun s cmd => b.Put cmd.CommandSlice s) w.st := by
  induction multi generalizing w with
  | nil => simp [putAll]
  | cons cmd rest ih => simp [putAll, ih, Builder.callPut]

theorem filter_isConnCall_puts (multi : List Completed) :
    (multi.map (fun cmd => (Event.Put cmd.CommandSlice : Event W))).filter Event.isConnCall
      = [] := by
  induction multi with
  | nil => rfl
  | cons cmd rest ih => simp [Event.isConnCall]

theorem filter_isWireCall_puts (multi : List Completed) :
    (multi.map (fun cmd => (Event.Put cmd.CommandSlice : Event W))).filter Event.isWireCall
      = [] := by
  induction multi with
  | nil => rfl
  | cons cmd rest ih => simp [Event.isWireCall]

theorem wireCmds_puts (multi : List Completed) :
    wireCmds (multi.map (fun cmd => (Event.Put cmd.CommandSlice : Event W))) = [] := by
  induction multi with
  | nil => rfl
  | cons cmd rest ih => simpa [wireCmds] using ih

theorem wireCmds_append (s t : List (Event W)) : wireCmds (s ++ t) = wireCmds s ++ wireCmds t := by
  induction s with
  | nil => rfl
  | cons e rest ih => cases e <;> simp [wireCmds, ih]

theorem onWire_isConnCall (x : W) (e : Event W) (h : e.onWire x) : e.isConnCall = false := by
  cases e <;> simp_all [Event.onWire, Event.isConnCall]

theorem filter_isConnCall_onWire (x : W) (t : List (Event W)) (h : ∀ e ∈ t, Event.onWire x e) :
    t.filter Event.isConnCall = [] := by
  rw [List.filter_eq_nil_iff]
  intro e he
  simp [onWire_isConnCall x e (h e he)]

theorem dedicated_Do_trace (I : Rueidis.wire σ W) (c : dedicatedSingleClient σ W) (ctx : Context)
    (cmd : Completed) (w : World σ W) :
    (dedicatedSingleClient.Do I c ctx cmd w).2.trace
      = w.trace ++ [Event.wireDo c.wire cmd, Event.Put cmd.CommandSlice] := by
  simp [dedicatedSingleClient.Do, wire.callDo, Builder.callPut]

theorem dedicated_DoMulti_trace (I : Rueidis.wire σ W) (c : dedicatedSingleClient σ W)
    (ctx : Context) (multi : List Completed) (w : World σ W) (h : multi ≠ []) :
    (dedicatedSingleClient.DoMulti I c ctx multi w).2.trace
      = w.trace ++ Event.wireDoMulti c.wire multi
          :: multi.map (fun cmd => Event.Put cmd.CommandSlice) := by
  simp [dedicatedSingleClient.DoMulti, h, wire.callDoMulti, putAll_trace]

theorem dedicated_DoMulti_nil (I : Rueidis.wire σ W) (c : dedicatedSingleClient σ W)
    (ctx : Context) (w : World σ W) :
    dedicatedSingleClient.DoMulti I c ctx [] w = ([], w) := by
  simp [dedicatedSingleClient.DoMulti]

/-- What a scripted callback adds to the trace: calls on the wire of its
client and `Put`s, and the commands it runs on the wire are the ones it
issued. -/
theorem Script.run_trace (I : Rueidis.wire σ W) (prog : Script σ) (c : dedicatedSingleClient σ W)
    (w : World σ W) :
    ∃ t, (prog.run I c w).2.trace = w.trace ++ t ∧ (∀ e ∈ t, Event.onWire c.wire e) ∧
      wireCmds t = (prog.issued I c w).map (fun cmd => (c.wire, cmd)) := by
  induction prog generalizing w with
  | done err => exact ⟨[], by simp [Script.run], by simp, by simp [Script.issued, wireCmds]⟩
  | B k ih =>
    obtain ⟨t, h1, h2, h3⟩ := ih c.B w
    exact ⟨t, by simpa [Script.run] using h1, h2, by simpa [Script.issued] using h3⟩
  | Do ctx cmd k ih =>
    obtain ⟨t, h1, h2, h3⟩ := ih (dedicatedSingleClient.Do I c ctx cmd w).1
      (dedicatedSingleClient.Do I c ctx cmd w).2
    refine ⟨Event.wireDo c.wire cmd :: Event.Put cmd.CommandSlice :: t, ?_, ?_, ?_⟩
    · rw [Script.run, h1, dedicated_Do_trace]; simp
    · intro e he
      simp only [List.mem_cons] at he
      rcases he with rfl | rfl | he
      · simp [Event.onWire]
      · simp [Event.onWire]
      · exact h2 e he
    · simp [wireCmds, Script.issued, h3]
  | DoMulti ctx multi k ih =>
    obtain ⟨t, h1, h2, h3⟩ := ih (dedicatedSingleClient.DoMulti I c ctx multi w).1
      (dedicatedSingleClient.DoMulti I c ctx multi w).2
    by_cases hm : multi = []
    · subst hm
      refine ⟨t, ?_, h2, ?_⟩
      · rw [Script.run, h1, dedicated_DoMulti_nil]
      · simpa [Script.issued] using h3
    · refine ⟨Event.wireDoMulti c.wire multi
          :: (multi.map (fun cmd => Event.Put cmd.CommandSlice) ++ t), ?_, ?_, ?_⟩
      · rw [Script.run, h1, dedicated_DoMulti_trace I c ctx multi w hm]; simp
      · intro e he
        simp only [List.mem_cons, List.mem_append, List.mem_map] at he
        rcases he with rfl | ⟨cmd, _, rfl⟩ | he
        · simp [Event.onWire]
        · simp [Event.onWire]
        · exact h2 e he
      · simp [wireCmds, wireCmds_append, wireCmds_puts, Script.issued, h3]

theorem putAll_lift_flag (b : Builder σ) (multi : List Completed) (w : World (σ × Bool) W) :
    (putAll b.lift multi w).st.2 = w.st.2 := by
  induction multi generalizing w with
  | nil => rfl
  | cons cmd rest ih =>
    rw [putAll, ih]
    rfl

/-- A scripted callback run on lifted wires leaves the closed flag alone. -/
theorem Script.run_flag (I : Rueidis.wire σ W) (b : Builder σ) (prog : Script (σ × Bool)) (x : W)
    (w : World (σ × Bool) W) :
    (prog.run I.lift { cmd := b.lift, wire := x } w).2.st.2 = w.st.2 := by
  induction prog generalizing w with
  | done err => rfl
  | B k ih => simpa [Script.run] using ih _ w
  | Do ctx cmd k ih =>
    rw [Script.run, ih]
    simp [dedicatedSingleClient.Do, wire.callDo, Builder.callPut, Builder.lift, wire.lift]
  | DoMulti ctx multi k ih =>
    rw [Script.run, ih]
    by_cases hm : multi = []
    · simp [dedicatedSingleClient.DoMulti, hm]
    · simp [dedicatedSingleClient.DoMulti, hm, putAll_lift_flag, wire.callDoMulti, wire.lift]

/-- No call on the client reopens a closed pool. -/
theorem Call.run_closed (I : Rueidis.wire σ W) (b : Builder σ) (inner : conn σ W)
    (call : Call (σ × Bool)) (w : World (σ × Bool) W) (h : w.st.2 = true) :
    (call.run I.lift (closingClient b inner) w).st.2 = true := by
  cases call with
  | Do ctx cmd =>
    simp [Call.run, SingleClient.Do, conn.callDo, Builder.callPut, Builder.lift, closingClient,
      closingConn, h]
  | DoCache ctx cmd ttl =>
    simp [Call.run, SingleClient.DoCache, conn.callDoCache, Builder.callPut, Builder.lift,
      closingClient, closingConn, h]
  | Dedicated fn =>
    simp only [Call.run, SingleClient.Dedicated, conn.callStore, conn.callAcquire, closingClient,
      closingConn]
    rw [Script.run_flag]
    exact h
  | Close => simp [Call.run, SingleClient.Close, conn.callClose, closingClient, closingConn]

theorem runCalls_closed (I : Rueidis.wire σ W) (b : Builder σ) (inner : conn σ W)
    (calls : List (Call (σ × Bool))) (w : World (σ × Bool) W) (h : w.st.2 = true) :
    (runCalls I.lift (closingClient b inner) calls w).st.2 = true := by
  induction calls generalizing w with
  | nil => exact h
  | cons call rest ih => exact ih _ (Call.run_closed I b inner call w h)

/-! ## Claims -/

/-- C1: `newSingleClient` fails exactly when `conn.Dial()` fails.  If `Dial`
returns an error `e`, the result is (no client, `e`), the only call made is
that one `Dial`, and the hook is not installed; if `Dial` returns no error,
the result is the client and a nil error, and the calls made are `Dial`
followed by one `installHook`. -/
theorem newSingleClient_dial (nb : Builder σ) (opt : SingleClientOption σ W) (mk : connFn σ W)
    (w : World σ W) :
    (∀ e : Error, ((mk opt.Address opt.ConnOption).Dial w.st).1 = some e →
      (newSingleClient nb opt mk w).1 = (none, some e) ∧
      (newSingleClient nb opt mk w).2.trace = w.trace ++ [Event.Dial] ∧
      (newSingleClient nb opt mk w).2.st = ((mk opt.Address opt.ConnOption).Dial w.st).2) ∧
    (((mk opt.Address opt.ConnOption).Dial w.st).1 = none →
      (newSingleClient nb opt mk w).1
        = (some { cmd := nb, conn := mk opt.Address opt.ConnOption }, none) ∧
      (newSingleClient nb opt mk w).2.trace = w.trace ++ [Event.Dial, Event.installHook] ∧
      (newSingleClient nb opt mk w).2.st
        = opt.ConnOption.PubSubHandlers.installHook nb (fun _ => mk opt.Address opt.ConnOption)
            ((mk opt.Address opt.ConnOption).Dial w.st).2) := by
  constructor
  · intro e h
    simp [newSingleClient, conn.callDial, h]
  · intro h
    simp [newSingleClient, conn.callDial, h, PubSubHandlers.callInstallHook]

/-- Witness of C1: a connection whose `Dial` fails with `ErrConnClosing`, and
one whose `Dial` succeeds. -/
theorem newSingleClient_dial_witness :
    ((newSingleClient demoBuilder demoOption (fun _ _ => demoConn (some ErrConnClosing))
        demoWorld).1 = (none, some ErrConnClosing) ∧
      (newSingleClient demoBuilder demoOption (fun _ _ => demoConn (some ErrConnClosing))
        demoWorld).2.trace = [Event.Dial] ∧
      (newSingleClient demoBuilder demoOption (fun _ _ => demoConn (some ErrConnClosing))
        demoWorld).2.st = 1) ∧
    ((newSingleClient demoBuilder demoOption (fun _ _ => demoConn none) demoWorld).1
        = (some demoClient, none) ∧
      (newSingleClient demoBuilder demoOption (fun _ _ => demoConn none) demoWorld).2.trace
        = [Event.Dial, Event.installHook] ∧
      (newSingleClient demoBuilder demoOption (fun _ _ => demoConn none) demoWorld).2.st = 2) :=
  ⟨(newSingleClient_dial demoBuilder demoOption (fun _ _ => demoConn (some ErrConnClosing))
      demoWorld).1 ErrConnClosing rfl,
   (newSingleClient_dial demoBuilder demoOption (fun _ _ => demoConn none) demoWorld).2 rfl⟩

/-- C2: `SingleClient.Dedicated` pairs acquire with release.  For every
callback `fn` that returns: the first call is `conn.Acquire()`, `fn` is run
on the dedicated client made of the builder and the acquired wire, from the
environment `Acquire` left; the one call after `fn` is `conn.Store` with the
wire `Acquire` returned, applied to the environment `fn` left; and
`Dedicated` returns what `fn` returned, nil or an error.  When `fn` adds the
calls `t` to the trace, `Dedicated` adds `Acquire`, then `t`, then `Store` of
the acquired wire. -/
theorem Dedicated_acquire_store (c : SingleClient σ W)
    (fn : dedicatedSingleClient σ W → World σ W → Option Error × World σ W) (w : World σ W) :
    (c.Dedicated fn w).1
      = (fn { cmd := c.cmd, wire := (c.conn.Acquire w.st).1 }
          { st := (c.conn.Acquire w.st).2, trace := w.trace ++ [Event.Acquire] }).1 ∧
    (c.Dedicated fn w).2.trace
      = (fn { cmd := c.cmd, wire := (c.conn.Acquire w.st).1 }
          { st := (c.conn.Acquire w.st).2, trace := w.trace ++ [Event.Acquire] }).2.trace
        ++ [Event.Store (c.conn.Acquire w.st).1] ∧
    (c.Dedicated fn w).2.st
      = c.conn.Store (c.conn.Acquire w.st).1
          (fn { cmd := c.cmd, wire := (c.conn.Acquire w.st).1 }
            { st := (c.conn.Acquire w.st).2, trace := w.trace ++ [Event.Acquire] }).2.st ∧
    (∀ t : List (Event W),
      (fn { cmd := c.cmd, wire := (c.conn.Acquire w.st).1 }
          { st := (c.conn.Acquire w.st).2, trace := w.trace ++ [Event.Acquire] }).2.trace
        = w.trace ++ [Event.Acquire] ++ t →
      (c.Dedicated fn w).2.trace
        = w.trace ++ Event.Acquire :: t ++ [Event.Store (c.conn.Acquire w.st).1]) := by
  refine ⟨rfl, rfl, rfl, ?_⟩
  intro t ht
  have h : (c.Dedicated fn w).2.trace
      = (fn { cmd := c.cmd, wire := (c.conn.Acquire w.st).1 }
          { st := (c.conn.Acquire w.st).2, trace := w.trace ++ [Event.Acquire] }).2.trace
        ++ [Event.Store (c.conn.Acquire w.st).1] := rfl
  rw [h, ht]
  simp

/-- Witness of C2: a callback that runs `GET k` on the wire it is handed and
returns `ErrConnClosing`. -/
theorem Dedicated_acquire_store_witness :
    (demoClient.Dedicated
        ((Script.Do Context.live getK (fun _ => Script.done (some ErrConnClosing))).run demoWire)
        demoWorld).1 = some ErrConnClosing ∧
    (demoClient.Dedicated
        ((Script.Do Context.live getK (fun _ => Script.done (some ErrConnClosing))).run demoWire)
        demoWorld).2.trace
      = [] ++ Event.Acquire :: [Event.wireDo 7 getK, Event.Put ["GET", "k"]]
          ++ [Event.Store 7] ∧
    (demoClient.Dedicated
        ((Script.Do Context.live getK (fun _ => Script.done (some ErrConnClosing))).run demoWire)
        demoWorld).2.st = 4 :=
  ⟨(Dedicated_acquire_store demoClient
      ((Script.Do Context.live getK (fun _ => Script.done (some ErrConnClosing))).run demoWire)
      demoWorld).1,
   (Dedicated_acquire_store demoClient
      ((Script.Do Context.live getK (fun _ => Script.done (some ErrConnClosing))).run demoWire)
      demoWorld).2.2.2 [Event.wireDo 7 getK, Event.Put ["GET", "k"]] rfl,
   (Dedicated_acquire_store demoClient
      ((Script.Do Context.live getK (fun _ => Script.done (some ErrConnClosing))).run demoWire)
      demoWorld).2.2.1⟩

/-- C3 as stated fails: called with a cancelled context, `SingleClient.Do`
still calls `conn.Do`, and returns the ordinary reply, the one it returns
with a live context; so does `DoCache`. -/
theorem Do_ignores_cancelled_context :
    Context.canceled.done = true ∧
    (demoClient.Do Context.canceled getK demoWorld).1 = (demoClient.conn.Do getK demoWorld.st).1 ∧
    (demoClient.Do Context.canceled getK demoWorld).1
      = (demoClient.Do Context.live getK demoWorld).1 ∧
    (demoClient.Do Context.canceled getK demoWorld).2.trace
      = [Event.connDo getK, Event.Put ["GET", "k"]] ∧
    (demoClient.DoCache Context.deadlineExceeded getKCache 1000000000 demoWorld).1
      = (demoClient.conn.DoCache getKCache 1000000000 demoWorld.st).1 :=
  ⟨rfl, rfl, rfl, rfl, rfl⟩

/-- C3, amended: `SingleClient.Do` and `SingleClient.DoCache` do not consult
the context.  For every command and any two contexts, cancelled or past
their deadline or not, the call returns the same result and leaves the same
environment, and the result is the reply of `conn.Do` (of `conn.DoCache`). -/
theorem Do_context_independent (c : SingleClient σ W) (ctx ctx2 : Context) (cmd : Completed)
    (cc : Cacheable) (ttl : Int) (w : World σ W) :
    c.Do ctx cmd w = c.Do ctx2 cmd w ∧
    (c.Do ctx cmd w).1 = (c.conn.Do cmd w.st).1 ∧
    c.DoCache ctx cc ttl w = c.DoCache ctx2 cc ttl w ∧
    (c.DoCache ctx cc ttl w).1 = (c.conn.DoCache cc ttl w.st).1 :=
  ⟨rfl, rfl, rfl, rfl⟩

/-- C4: `SingleClient.Do` passes the reply of the connection through.  For
every command it returns exactly the `Result` that `conn.Do` returned for
that command, value and error alike, so an error reply (the nil sentinel
included) comes back as it is; and the calls it makes on the shared `conn`
are exactly one `conn.Do` with that command. -/
theorem Do_passes_reply (c : SingleClient σ W) (ctx : Context) (cmd : Completed)
    (w : World σ W) :
    (c.Do ctx cmd w).1 = (c.conn.Do cmd w.st).1 ∧
    IsRedisNil (c.Do ctx cmd w).1.err = IsRedisNil (c.conn.Do cmd w.st).1.err ∧
    ((c.Do ctx cmd w).2.trace.drop w.trace.length).filter Event.isConnCall
      = [Event.connDo cmd] := by
  refine ⟨rfl, rfl, ?_⟩
  simp [SingleClient.Do, conn.callDo, Builder.callPut, Event.isConnCall]

/-- C5: `SingleClient.DoCache` executes the cached read with the given ttl.
For every cacheable command and every duration the calls it makes are one
`conn.DoCache` with that command and that ttl, then the `Put`; it makes no
`conn.Do` call; and it returns the `Result` of `conn.DoCache` unchanged. -/
theorem DoCache_passes_ttl (c : SingleClient σ W) (ctx : Context) (cmd : Cacheable) (ttl : Int)
    (w : World σ W) :
    (c.DoCache ctx cmd ttl w).1 = (c.conn.DoCache cmd ttl w.st).1 ∧
    (c.DoCache ctx cmd ttl w).2.trace
      = w.trace ++ [Event.connDoCache cmd ttl, Event.Put cmd.CommandSlice] ∧
    ((c.DoCache ctx cmd ttl w).2.trace.drop w.trace.length).filter Event.isConnCall
      = [Event.connDoCache cmd ttl] ∧
    (∀ other : Completed,
      Event.connDo other ∉ (c.DoCache ctx cmd ttl w).2.trace.drop w.trace.length) := by
  refine ⟨rfl, ?_, ?_, ?_⟩ <;>
    simp [SingleClient.DoCache, conn.callDoCache, Builder.callPut, Event.isConnCall]

/-- C6: `dedicatedSingleClient.DoMulti` sends a non-empty batch as one
pipeline.  The only call it makes on a wire is one `wire.DoMulti` with all
the commands in the order given (no `wire.Do`, no second `DoMulti`), and it
returns the reply list of that call unchanged, so the i-th returned `Result`
is the i-th reply of the wire. -/
theorem DoMulti_one_pipeline (I : Rueidis.wire σ W) (c : dedicatedSingleClient σ W)
    (ctx : Context) (multi : List Completed) (w : World σ W) (h : multi ≠ []) :
    (dedicatedSingleClient.DoMulti I c ctx multi w).1 = (I.DoMulti c.wire multi w.st).1 ∧
    (∀ i : Nat, (dedicatedSingleClient.DoMulti I c ctx multi w).1[i]?
      = (I.DoMulti c.wire multi w.st).1[i]?) ∧
    ((dedicatedSingleClient.DoMulti I c ctx multi w).2.trace.drop w.trace.length).filter
        Event.isWireCall
      = [Event.wireDoMulti c.wire multi] := by
  have h1 : (dedicatedSingleClient.DoMulti I c ctx multi w).1 = (I.DoMulti c.wire multi w.st).1 := by
    simp [dedicatedSingleClient.DoMulti, h, wire.callDoMulti]
  refine ⟨h1, fun i => by rw [h1], ?_⟩
  rw [dedicated_DoMulti_trace I c ctx multi w h]
  simp [Event.isWireCall, filter_isWireCall_puts]

/-- Witness of C6: the batch `GET k`, `SET k v` on wire 7. -/
theorem DoMulti_one_pipeline_witness :
    (dedicatedSingleClient.DoMulti demoWire { cmd := demoBuilder, wire := 7 } Context.live
        [getK, setKV] demoWorld).1 = [echo ["GET", "k"], echo ["SET", "k", "v"]] ∧
    (∀ i : Nat, (dedicatedSingleClient.DoMulti demoWire { cmd := demoBuilder, wire := 7 }
        Context.live [getK, setKV] demoWorld).1[i]?
      = [echo ["GET", "k"], echo ["SET", "k", "v"]][i]?) ∧
    ((dedicatedSingleClient.DoMulti demoWire { cmd := demoBuilder, wire := 7 } Context.live
        [getK, setKV] demoWorld).2.trace.drop 0).filter Event.isWireCall
      = [Event.wireDoMulti 7 [getK, setKV]] :=
  DoMulti_one_pipeline demoWire { cmd := demoBuilder, wire := 7 } Context.live [getK, setKV]
    demoWorld (by decide)

/-- C7: every command is executed once and then its buffer is returned to
the builder.  `SingleClient.Do`, `SingleClient.DoCache` and
`dedicatedSingleClient.Do` add to the trace exactly one execute call followed
by exactly one `Put` of the command's `CommandSlice`, and the `Put` acts on
the environment the execute call left; `dedicatedSingleClient.DoMulti` over
`n >= 1` commands adds one `wire.DoMulti` followed by `n` `Put`s, one per
command, in command order. -/
theorem execute_then_Put (c : SingleClient σ W) (I : Rueidis.wire σ W)
    (d : dedicatedSingleClient σ W) (ctx : Context) (cmd : Completed) (cc : Cacheable)
    (ttl : Int) (multi : List Completed) (w : World σ W) (h : 1 ≤ multi.length) :
    ((c.Do ctx cmd w).2.trace = w.trace ++ [Event.connDo cmd, Event.Put cmd.CommandSlice] ∧
      (c.Do ctx cmd w).2.st = c.cmd.Put cmd.CommandSlice (c.conn.Do cmd w.st).2) ∧
    ((c.DoCache ctx cc ttl w).2.trace
        = w.trace ++ [Event.connDoCache cc ttl, Event.Put cc.CommandSlice] ∧
      (c.DoCache ctx cc ttl w).2.st = c.cmd.Put cc.CommandSlice (c.conn.DoCache cc ttl w.st).2) ∧
    ((dedicatedSingleClient.Do I d ctx cmd w).2.trace
        = w.trace ++ [Event.wireDo d.wire cmd, Event.Put cmd.CommandSlice] ∧
      (dedicatedSingleClient.Do I d ctx cmd w).2.st
        = d.cmd.Put cmd.CommandSlice (I.Do d.wire cmd w.st).2) ∧
    ((dedicatedSingleClient.DoMulti I d ctx multi w).2.trace
        = w.trace ++ Event.wireDoMulti d.wire multi
            :: multi.map (fun x => Event.Put x.CommandSlice) ∧
      ((dedicatedSingleClient.DoMulti I d ctx multi w).2.trace.drop
        (w.trace.length + 1)).length = multi.length ∧
      (dedicatedSingleClient.DoMulti I d ctx multi w).2.st
        = multi.foldl (fun s x => d.cmd.Put x.CommandSlice s) (I.DoMulti d.wire multi w.st).2) := by
  have hm : multi ≠ [] := by
    intro h0
    simp [h0] at h
  refine ⟨⟨?_, rfl⟩, ⟨?_, rfl⟩, ⟨dedicated_Do_trace I d ctx cmd w, rfl⟩,
    dedicated_DoMulti_trace I d ctx multi w hm, ?_, ?_⟩
  · simp [SingleClient.Do, conn.callDo, Builder.callPut]
  · simp [SingleClient.DoCache, conn.callDoCache, Builder.callPut]
  · rw [dedicated_DoMulti_trace I d ctx multi w hm]
    simp
  · simp [dedicatedSingleClient.DoMulti, hm, putAll_st, wire.callDoMulti]

/-- Witness of C7: `GET k` on the shared connection and on wire 7, and the
batch `GET k`, `SET k v` on wire 7. -/
theorem execute_then_Put_witness :
    ((demoClient.Do Context.live getK demoWorld).2.trace
        = [] ++ [Event.connDo getK, Event.Put ["GET", "k"]] ∧
      (demoClient.Do Context.live getK demoWorld).2.st = 2) ∧
    ((demoClient.DoCache Context.live getKCache 5 demoWorld).2.trace
        = [] ++ [Event.connDoCache getKCache 5, Event.Put ["GET", "k"]] ∧
      (demoClient.DoCache Context.live getKCache 5 demoWorld).2.st = 2) ∧
    ((dedicatedSingleClient.Do demoWire { cmd := demoBuilder, wire := 7 } Context.live getK
        demoWorld).2.trace = [] ++ [Event.wireDo 7 getK, Event.Put ["GET", "k"]] ∧
      (dedicatedSingleClient.Do demoWire { cmd := demoBuilder, wire := 7 } Context.live getK
        demoWorld).2.st = 2) ∧
    ((dedicatedSingleClient.DoMulti demoWire { cmd := demoBuilder, wire := 7 } Context.live
        [getK, setKV] demoWorld).2.trace
        = [] ++ Event.wireDoMulti 7 [getK, setKV]
            :: [Event.Put ["GET", "k"], Event.Put ["SET", "k", "v"]] ∧
      ((dedicatedSingleClient.DoMulti demoWire { cmd := demoBuilder, wire := 7 } Context.live
        [getK, setKV] demoWorld).2.trace.drop (0 + 1)).length = 2 ∧
      (dedicatedSingleClient.DoMulti demoWire { cmd := demoBuilder, wire := 7 } Context.live
        [getK, setKV] demoWorld).2.st = 3) :=
  execute_then_Put demoClient demoWire { cmd := demoBuilder, wire := 7 } Context.live getK
    getKCache 5 [getK, setKV] demoWorld (by decide)

/-- C8: a dedicated connection is used only through its checkout.  For every
callback that acts through the `DedicatedClient` it is handed, whatever `Do`
and `DoMulti` calls it makes: between the `Acquire` and the `Store` of
`Dedicated` the trace holds only calls on the acquired wire and `Put`s; the
commands run on that wire are, in order, the commands the callback issued;
and the calls made on the shared `conn` are `Acquire` and `Store` of that
wire, nothing else (no `conn.Do`, no `conn.DoCache`). -/
theorem Dedicated_exclusive (I : Rueidis.wire σ W) (c : SingleClient σ W) (prog : Script σ)
    (w : World σ W) :
    ∃ t : List (Event W),
      (c.Dedicated (prog.run I) w).2.trace
        = w.trace ++ Event.Acquire :: t ++ [Event.Store (c.conn.Acquire w.st).1] ∧
      (∀ e ∈ t, Event.onWire (c.conn.Acquire w.st).1 e) ∧
      wireCmds t
        = (prog.issued I { cmd := c.cmd, wire := (c.conn.Acquire w.st).1 }
            (c.conn.callAcquire w).2).map (fun cmd => ((c.conn.Acquire w.st).1, cmd)) ∧
      ((c.Dedicated (prog.run I) w).2.trace.drop w.trace.length).filter Event.isConnCall
        = [Event.Acquire, Event.Store (c.conn.Acquire w.st).1] := by
  obtain ⟨t, h1, h2, h3⟩ :=
    Script.run_trace I prog { cmd := c.cmd, wire := (c.conn.Acquire w.st).1 }
      (c.conn.callAcquire w).2
  have ht : (c.Dedicated (prog.run I) w).2.trace
      = w.trace ++ Event.Acquire :: t ++ [Event.Store (c.conn.Acquire w.st).1] := by
    simp only [SingleClient.Dedicated, conn.callStore]
    rw [show (c.conn.callAcquire w).1 = (c.conn.Acquire w.st).1 from rfl, h1]
    simp [conn.callAcquire]
  refine ⟨t, ht, h2, h3, ?_⟩
  rw [ht]
  simp [List.filter_cons, List.filter_append, Event.isConnCall,
    filter_isConnCall_onWire _ t h2]

/-- C9: closing the client makes later calls fail fast.  Over the pool as the
spec describes it: after `SingleClient.Close()`, whatever calls are made on
the client in between, `SingleClient.Do` and `SingleClient.DoCache` return a
`Result` whose error is `ErrConnClosing`, for every command, and they return
without consulting the open pool (its state is touched by the `Put` only). -/
theorem Do_after_Close (I : Rueidis.wire σ W) (b : Builder σ) (inner : conn σ W)
    (calls : List (Call (σ × Bool))) (ctx : Context) (cmd : Completed) (cc : Cacheable)
    (ttl : Int) (w : World (σ × Bool) W) :
    ((closingClient b inner).Do ctx cmd
        (runCalls I.lift (closingClient b inner) calls ((closingClient b inner).Close w))).1.err
      = some ErrConnClosing ∧
    ((closingClient b inner).DoCache ctx cc ttl
        (runCalls I.lift (closingClient b inner) calls ((closingClient b inner).Close w))).1.err
      = some ErrConnClosing ∧
    ((closingClient b inner).Do ctx cmd
        (runCalls I.lift (closingClient b inner) calls ((closingClient b inner).Close w))).2.st
      = (b.Put cmd.CommandSlice
          (runCalls I.lift (closingClient b inner) calls
            ((closingClient b inner).Close w)).st.1, true) ∧
    ((closingClient b inner).DoCache ctx cc ttl
        (runCalls I.lift (closingClient b inner) calls ((closingClient b inner).Close w))).2.st
      = (b.Put cc.CommandSlice
          (runCalls I.lift (closingClient b inner) calls
            ((closingClient b inner).Close w)).st.1, true) := by
  have hc : (runCalls I.lift (closingClient b inner) calls
      ((closingClient b inner).Close w)).st.2 = true :=
    runCalls_closed I b inner calls _ rfl
  refine ⟨?_, ?_, ?_, ?_⟩
  · simp [SingleClient.Do, conn.callDo, closingClient, closingConn] at hc ⊢
    simp [hc]
  · simp [SingleClient.DoCache, conn.callDoCache, closingClient, closingConn] at hc ⊢
    simp [hc]
  · simp [SingleClient.Do, conn.callDo, Builder.callPut, Builder.lift, closingClient,
      closingConn] at hc ⊢
    simp [hc]
  · simp [SingleClient.DoCache, conn.callDoCache, Builder.callPut, Builder.lift, closingClient,
      closingConn] at hc ⊢
    simp [hc]

/-- C10: `dedicatedSingleClient.DoMulti` on an empty batch is a no-op: it
returns the nil (empty) result list and leaves the environment as it was, so
it makes no call on the wire and no `Put`. -/
theorem DoMulti_empty (I : Rueidis.wire σ W) (c : dedicatedSingleClient σ W) (ctx : Context)
    (w : World σ W) :
    (dedicatedSingleClient.DoMulti I c ctx [] w).1 = [] ∧
    (dedicatedSingleClient.DoMulti I c ctx [] w).2.trace = w.trace ∧
    (dedicatedSingleClient.DoMulti I c ctx [] w).2.st = w.st := by
  simp [dedicatedSingleClient.DoMulti]

end Rueidis
